import Mathlib

/-!
Shallow embedding of `src/media_downloader.py`: the per-message retry loop
of `download_media`, the batch pagination of `begin_import`, the
checkpoint recomputation of `update_config`, and the helpers
`_can_download`, `_is_valid_file` and the format component of
`_get_media_meta`.  External collaborators (the pyrogram client, the file
system, `get_next_name`, `manage_duplicate_file`) are modelled as
parameters of the functions that call them; Python exceptions are
modelled as explicit values.
-/

namespace MediaDownloader

/-- Python exceptions distinguished by the `except` clauses of
`download_media`: `pyrogram...BadRequest`, `TypeError`, and any other
`Exception` (e.g. `KeyError`, `IndexError`, `AttributeError`). -/
inductive PyExc where
  | badRequest
  | typeError
  | other
deriving DecidableEq, Repr

/-- Result of one invocation of the external transfer
`client.download_media(message, file_name=...)`: it may produce a file
(modelled by the byte size reported by `os.path.getsize`), return a falsy
path, or raise an exception. -/
inductive TransferResult where
  | ok (size : Nat)
  | noPath
  | exc (e : PyExc)
deriving DecidableEq, Repr

/-- The media payload attached to a message: the attribute name under
which it is found (`audio` / `document` / `photo` / `video` /
`video_note` / `voice`) and its `mime_type` (`none` models
`mime_type is None`).  A Telegram message carries at most one media
payload, so `getattr(message, t)` is non-`None` exactly when `t` is this
kind. -/
structure MediaObj where
  kind : String
  mime : Option String
deriving DecidableEq, Repr

/-- The part of a `pyrogram.types.Message` that `download_media` reads:
its numeric id and its optional media payload. -/
structure Message where
  id : Nat
  media : Option MediaObj
deriving DecidableEq, Repr

/-- External behaviour surrounding one `download_media` call:
`transfer n t` is the outcome of `client.download_media` on attempt `n`
for the media attribute `t`; `refetch n` is the media of the message
returned by `client.get_messages(chat_id, message_ids=message_id)` in the
`BadRequest` handler of attempt `n` (the re-fetched message carries the
same id, only its media may be fresh). -/
structure Env where
  transfer : Nat → String → TransferResult
  refetch : Nat → Option MediaObj

/-- Reason attached to a terminal `logger.error` failure line of
`download_media` (`File reference expired` / `Timeout after 3 retries` /
`File too small or empty` / `due to exception`). -/
inductive FailReason where
  | fileReferenceExpired
  | timeout
  | tooSmallOrEmpty
  | exception
deriving DecidableEq, Repr

/-- The process-wide effects of `download_media`: the globals
`FAILED_IDS` and `DOWNLOADED_IDS`, the trace of `asyncio.sleep` durations,
the number of `client.download_media` invocations, the number of
`os.remove` calls, and the terminal failure log lines with their reasons. -/
structure DLState where
  failed : List Nat
  downloaded : List Nat
  sleeps : List Nat
  attempts : Nat
  removed : Nat
  failLog : List (Nat × FailReason)
deriving DecidableEq, Repr

/-- Python's `file_format in allowed_formats` for an `Optional[str]`
format: `None in list_of_strings` is false. -/
def fmtMem (file_format : Option String) (allowed : List String) : Bool :=
  match file_format with
  | some f => allowed.contains f
  | none => false

/-- Embedding of `_can_download` from the source.  `file_formats` is the config dict
(`none` models a missing key, raising `KeyError`); when the format is not
in the list, `allowed_formats[0]` raises `IndexError` on an empty list.
Python evaluates the membership test first and short-circuits the `and`,
so a format found in the list never touches `allowed_formats[0]`. -/
def _can_download (t : String) (file_formats : String → Option (List String))
    (file_format : Option String) : Except PyExc Bool :=
  if t = "audio" ∨ t = "document" ∨ t = "video" then
    match file_formats t with
    | none => .error .other
    | some allowed_formats =>
      if fmtMem file_format allowed_formats then .ok true
      else
        match allowed_formats with
        | [] => .error .other
        | a :: _ => if a = "all" then .ok true else .ok false
  else .ok true

/-- Embedding of `_is_valid_file`, as a function of the file size reported by
`os.path.getsize`; the caller uses the default `min_size = 512`. -/
def _is_valid_file (file_size : Nat) (min_size : Nat) : Bool :=
  if file_size = 0 then false
  else if file_size < min_size then true
  else true

/-- Python's `mime_type.split("/")[-1]`: the suffix after the last `/`, or the
whole string when it contains no `/` (Python's split of such a string is
the one-element list holding it). -/
def mimeLastSegment (m : String) : String :=
  ⟨m.data.foldl (fun acc c => if c = '/' then [] else acc ++ [c]) []⟩

/-- The `file_format` component of `_get_media_meta`: for the mime-typed
kinds it is `mime_type.split("/")[-1]` (an `AttributeError` when
`mime_type` is `None`), otherwise `None`.  The file-name component only
builds a path on the file system and is not consulted by any decision
modelled here. -/
def _get_media_meta_format (t : String) (mime : Option String) :
    Except PyExc (Option String) :=
  if t = "audio" ∨ t = "document" ∨ t = "video" ∨ t = "voice" then
    match mime with
    | none => .error .other
    | some m => .ok (some (mimeLastSegment m))
  else .ok none

/-- One iteration of the `for _type in media_types` loop inside the `try`
block of `download_media`: skip when the message does not carry this
attribute; otherwise derive the format, filter with `_can_download`,
invoke the transfer, validate the result and record the outcome.  The
second component is the exception propagating out of the `try` block, if
any. -/
def processOneType (env : Env) (file_formats : String → Option (List String))
    (attempt mid : Nat) (m : MediaObj) (t : String) (st : DLState) :
    DLState × Option PyExc :=
  if m.kind ≠ t then (st, none)
  else
    match _get_media_meta_format t m.mime with
    | .error e => (st, some e)
    | .ok file_format =>
      match _can_download t file_formats file_format with
      | .error e => (st, some e)
      | .ok false => (st, none)
      | .ok true =>
        let st1 : DLState := { st with attempts := st.attempts + 1 }
        match env.transfer attempt t with
        | .exc e => (st1, some e)
        | .noPath => (st1, none)
        | .ok size =>
          if _is_valid_file size 512 then
            ({ st1 with downloaded := st1.downloaded ++ [mid] }, none)
          else
            ({ st1 with removed := st1.removed + 1,
                        failed := st1.failed ++ [mid],
                        failLog := st1.failLog ++ [(mid, .tooSmallOrEmpty)] }, none)

/-- The whole `for _type in media_types` loop: left-to-right, aborted by
the first exception. -/
def processTypes (env : Env) (file_formats : String → Option (List String))
    (attempt mid : Nat) (m : MediaObj) :
    List String → DLState → DLState × Option PyExc
  | [], st => (st, none)
  | t :: ts, st =>
    match processOneType env file_formats attempt mid m t st with
    | (st1, some e) => (st1, some e)
    | (st1, none) => processTypes env file_formats attempt mid m ts st1

/-- How one execution of the `try` block of `download_media` ends. -/
inductive AttemptOut where
  | earlyReturn
  | finished
  | raised (e : PyExc)
deriving DecidableEq, Repr

/-- One execution of the `try` block: `return message.id` when the message
has no media (the id equals `message_id` also after a re-fetch), the
`break` after the media loop, or a raised exception. -/
def runAttempt (env : Env) (file_formats : String → Option (List String))
    (types : List String) (mid attempt : Nat) (media : Option MediaObj)
    (st : DLState) : DLState × AttemptOut :=
  match media with
  | none => (st, .earlyReturn)
  | some m =>
    match processTypes env file_formats attempt mid m types st with
    | (st1, none) => (st1, .finished)
    | (st1, some e) => (st1, .raised e)

/-- The `for retry in range(3)` loop of `download_media`.  `rs` is the
list of remaining values of `retry`; `media` is the current message's
media (the `BadRequest` handler replaces the message by a re-fetched copy
with the same id).  The `TypeError` handler sleeps 5 before checking
`retry == 2`; both transient handlers fall through to the next iteration,
while any other exception records the failure and breaks.  Returns the
final state and the function's return value (always `message_id`). -/
def dlGo (env : Env) (file_formats : String → Option (List String))
    (types : List String) (mid : Nat) :
    List Nat → Option MediaObj → DLState → DLState × Nat
  | [], _, st => (st, mid)
  | r :: rs, media, st =>
    match runAttempt env file_formats types mid r media st with
    | (st1, .earlyReturn) => (st1, mid)
    | (st1, .finished) => (st1, mid)
    | (st1, .raised .badRequest) =>
      let st2 := if r = 2 then
          { st1 with failed := st1.failed ++ [mid],
                     failLog := st1.failLog ++ [(mid, .fileReferenceExpired)] }
        else st1
      dlGo env file_formats types mid rs (env.refetch r) st2
    | (st1, .raised .typeError) =>
      let stS : DLState := { st1 with sleeps := st1.sleeps ++ [5] }
      let st2 := if r = 2 then
          { stS with failed := stS.failed ++ [mid],
                     failLog := stS.failLog ++ [(mid, .timeout)] }
        else stS
      dlGo env file_formats types mid rs media st2
    | (st1, .raised .other) =>
      ({ st1 with failed := st1.failed ++ [mid],
                  failLog := st1.failLog ++ [(mid, .exception)] }, mid)

/-- Embedding of `download_media`: run the retry loop on the message's media, starting
from the given global state. -/
def download_media (env : Env) (file_formats : String → Option (List String))
    (types : List String) (msg : Message) (st : DLState) : DLState × Nat :=
  dlGo env file_formats types msg.id [0, 1, 2] msg.media st

/-- Python's `max` over a list of ids: a `ValueError` on the empty list,
modelled as `none`. -/
def pyMax : List Nat → Option Nat
  | [] => none
  | x :: xs => some (xs.foldl Nat.max x)

/-- The `asyncio.gather` fan-out of `process_messages`.  The scheduling is
single-threaded cooperative, so the aggregate effect on the shared global
lists is the composition of the per-message effects; `gather` returns the
per-message results in input order.  `env` gives each message id its
transfer behaviour. -/
def process_messages_run (env : Nat → Env)
    (file_formats : String → Option (List String)) (types : List String) :
    List Message → DLState → DLState × List Nat
  | [], st => (st, [])
  | msg :: rest, st =>
    let p := download_media (env msg.id) file_formats types msg st
    let q := process_messages_run env file_formats types rest p.1
    (q.1, p.2 :: q.2)

/-- Embedding of `process_messages`: gather all `download_media` results and return
`max(message_ids)`. -/
def process_messages (env : Nat → Env)
    (file_formats : String → Option (List String)) (types : List String)
    (msgs : List Message) (st : DLState) : DLState × Option Nat :=
  let p := process_messages_run env file_formats types msgs st
  (p.1, pyMax p.2)

/-- The pagination loop of `begin_import` over the ids of the forward
stream.  `count` is `pagination_count`, `acc` is `messages_list`, `done`
collects the batches dispatched inside the loop (each followed by an
`update_config` checkpoint write whose cursor is the `process_messages`
result).  Note the `else` branch resets `count` to 0 but seeds the new
`messages_list` with the current message without counting it. -/
def begin_import_go (limit : Nat) :
    List Nat → Nat → List Nat → List (List Nat) → List (List Nat) × List Nat
  | [], _, acc, done => (done, acc)
  | m :: rest, count, acc, done =>
    if count ≠ limit then begin_import_go limit rest (count + 1) (acc ++ [m]) done
    else begin_import_go limit rest 0 [m] (done ++ [acc])

/-- Embedding of `begin_import`: seed `messages_list` with the retry backlog (each
backlog message increments `pagination_count`), then run the pagination
loop.  First component: the batches dispatched inside the loop; second:
the final `messages_list`, dispatched after the loop only if non-empty
and with no checkpoint write. -/
def begin_import_batches (limit : Nat) (retryIds stream : List Nat) :
    List (List Nat) × List Nat :=
  begin_import_go limit stream retryIds.length retryIds []

/-- The checkpoint cursor values written by `update_config` inside the
loop: for each dispatched batch, `process_messages` returns the maximum
message id of the batch. -/
def checkpoint_cursors (limit : Nat) (retryIds stream : List Nat) : List Nat :=
  (begin_import_batches limit retryIds stream).1.map (fun b => (pyMax b).getD 0)

/-- Every batch handed to `process_messages` by `begin_import`: the loop
batches plus, when `messages_list` is non-empty after the loop, the final
drain batch (the code guards the drain with `if messages_list:`). -/
def dispatched_batches (limit : Nat) (retryIds stream : List Nat) : List (List Nat) :=
  (begin_import_batches limit retryIds stream).1 ++
    (if (begin_import_batches limit retryIds stream).2 = [] then []
     else [(begin_import_batches limit retryIds stream).2])

/-- The `ids_to_retry` recomputation in `update_config`:
`list(set(config["ids_to_retry"]) - set(DOWNLOADED_IDS)) + FAILED_IDS`.
A Python set holds each element once in an unspecified order; the model
fixes first-occurrence order, which does not affect membership. -/
def update_config_ids_to_retry (ids_to_retry downloadedIds failedIds : List Nat) :
    List Nat :=
  (ids_to_retry.dedup.filter (fun x => ! downloadedIds.contains x)) ++ failedIds

/-! ## Helper lemmas about the media-type loop -/

/-- Types the message does not carry are skipped without any effect. -/
lemma processTypes_skip (env : Env) (ff : String → Option (List String))
    (attempt mid : Nat) (m : MediaObj) (ts : List String) (st : DLState)
    (h : m.kind ∉ ts) :
    processTypes env ff attempt mid m ts st = (st, none) := by
  induction ts with
  | nil => rfl
  | cons t ts ih =>
    have hne : m.kind ≠ t := fun he => h (he ▸ List.mem_cons_self t ts)
    have hnt : m.kind ∉ ts := fun hm => h (List.mem_cons_of_mem t hm)
    simp only [processTypes, processOneType, if_pos hne]
    exact ih hnt

/-- With duplicate-free `media_types`, the loop reduces to the single step
for the message's own kind: every other iteration is a skip. -/
lemma processTypes_hit (env : Env) (ff : String → Option (List String))
    (attempt mid : Nat) (m : MediaObj) (ts : List String) (st : DLState)
    (hk : m.kind ∈ ts) (hnd : ts.Nodup) :
    processTypes env ff attempt mid m ts st =
      processOneType env ff attempt mid m m.kind st := by
  induction ts generalizing st with
  | nil => cases hk
  | cons t ts ih =>
    rcases List.mem_cons.mp hk with he | hm
    · subst he
      have hnt : m.kind ∉ ts := (List.nodup_cons.mp hnd).1
      simp only [processTypes]
      rcases hstep : processOneType env ff attempt mid m m.kind st with ⟨st1, e⟩
      cases e with
      | none => simp [processTypes_skip env ff attempt mid m ts st1 hnt]
      | some e => simp
    · have hne : m.kind ≠ t := by
        intro he
        exact (List.nodup_cons.mp hnd).1 (he ▸ hm)
      simp only [processTypes, processOneType, if_pos hne]
      exact ih st hm (List.nodup_cons.mp hnd).2

/-! ## C8 -/

/-- C8: a message that carries no media returns immediately with its own
id, and no component of the process-wide state (in particular neither
`FAILED_IDS` nor `DOWNLOADED_IDS`) is modified. -/
theorem C8_no_media_skipped (env : Env) (ff : String → Option (List String))
    (types : List String) (msg : Message) (st : DLState)
    (h : msg.media = none) :
    download_media env ff types msg st = (st, msg.id) := by
  simp [download_media, dlGo, runAttempt, h]

theorem C8_no_media_skipped_witness :
    download_media
      { transfer := fun _ _ => .exc .typeError, refetch := fun _ => none }
      (fun _ => some ["all"]) ["video"] { id := 7, media := none }
      { failed := [1], downloaded := [2], sleeps := [], attempts := 0,
        removed := 0, failLog := [] } =
      ({ failed := [1], downloaded := [2], sleeps := [], attempts := 0,
         removed := 0, failLog := [] }, 7) :=
  C8_no_media_skipped _ _ _ _ _ rfl

/-! ## C2 -/

/-- C2: the checkpoint save recomputes `ids_to_retry` so that, as a set,
it equals (previous retry set minus newly-downloaded ids) union
newly-failed ids; in particular previous `{5,7}` with downloads `{5}` and
failures `{9}` yields `{7,9}`. -/
theorem C2_retry_set_recompute (R D F : List Nat) :
    (∀ x : Nat, x ∈ update_config_ids_to_retry R D F ↔
      (x ∈ R ∧ x ∉ D) ∨ x ∈ F) ∧
    (∀ x : Nat, x ∈ update_config_ids_to_retry [5, 7] [5] [9] ↔
      x = 7 ∨ x = 9) := by
  constructor
  · intro x
    simp [update_config_ids_to_retry, List.mem_filter, List.mem_dedup]
  · intro x
    have h : update_config_ids_to_retry [5, 7] [5] [9] = [7, 9] := rfl
    rw [h]
    simp

/-! ## C4 -/

/-- C4: for a kind governed by an allow-list whose first entry is not the
sentinel `"all"`, `_can_download` returns true exactly when the format is
a member of the list; when the first entry is `"all"` it returns true
regardless of the format. -/
theorem C4_allow_list (t : String) (ff : String → Option (List String))
    (fmt : Option String) (a : String) (rest : List String)
    (hgov : t = "audio" ∨ t = "document" ∨ t = "video")
    (hff : ff t = some (a :: rest)) :
    (a ≠ "all" → _can_download t ff fmt = .ok (fmtMem fmt (a :: rest))) ∧
    (a = "all" → _can_download t ff fmt = .ok true) := by
  constructor
  · intro ha
    simp only [_can_download, if_pos hgov, hff]
    by_cases hm : fmtMem fmt (a :: rest)
    · simp [hm]
    · simp [hm, ha]
  · intro ha
    subst ha
    simp only [_can_download, if_pos hgov, hff]
    by_cases hm : fmtMem fmt ("all" :: rest)
    · simp [hm]
    · simp [hm]

theorem C4_allow_list_witness :
    _can_download "audio" (fun _ => some ["mp3", "flac"]) (some "mp3") =
        .ok (fmtMem (some "mp3") ["mp3", "flac"]) ∧
    _can_download "audio" (fun _ => some ["mp3", "flac"]) (some "ogg") =
        .ok (fmtMem (some "ogg") ["mp3", "flac"]) ∧
    _can_download "video" (fun _ => some ["all", "mp4"]) (some "mkv") = .ok true :=
  ⟨(C4_allow_list "audio" _ _ "mp3" ["flac"] (Or.inl rfl) rfl).1 (by decide),
   (C4_allow_list "audio" _ _ "mp3" ["flac"] (Or.inl rfl) rfl).1 (by decide),
   (C4_allow_list "video" _ _ "all" ["mp4"] (Or.inr (Or.inr rfl)) rfl).2 rfl⟩

/-! ## C7 -/

/-- C7: for a kind not governed by an allow-list (the code consults the
config only for `audio`, `document` and `video`), and for a governed kind
whose allow-list is `["all"]`, `_can_download` returns true regardless of
the format. -/
theorem C7_all_or_unset (t : String) (ff : String → Option (List String))
    (fmt : Option String) :
    (¬ (t = "audio" ∨ t = "document" ∨ t = "video") →
      _can_download t ff fmt = .ok true) ∧
    (ff t = some ["all"] → _can_download t ff fmt = .ok true) := by
  constructor
  · intro h
    simp [_can_download, h]
  · intro h
    by_cases hgov : t = "audio" ∨ t = "document" ∨ t = "video"
    · simp only [_can_download, if_pos hgov, h]
      by_cases hm : fmtMem fmt ["all"] <;> simp [hm]
    · simp [_can_download, hgov]

theorem C7_all_or_unset_witness :
    _can_download "photo" (fun _ => none) (some "ogg") = .ok true ∧
    _can_download "audio" (fun _ => some ["all"]) (some "ogg") = .ok true :=
  ⟨(C7_all_or_unset "photo" (fun _ => none) (some "ogg")).1 (by decide),
   (C7_all_or_unset "audio" (fun _ => some ["all"]) (some "ogg")).2 rfl⟩

/-- An attempt whose transfer raises `TypeError` leaves the state
untouched except for counting the transfer invocation. -/
lemma runAttempt_typeError (env : Env) (ff : String → Option (List String))
    (types : List String) (mid attempt : Nat) (m : MediaObj)
    (fmt : Option String) (st : DLState)
    (hk : m.kind ∈ types) (hnd : types.Nodup)
    (hmeta : _get_media_meta_format m.kind m.mime = .ok fmt)
    (hcd : _can_download m.kind ff fmt = .ok true)
    (htr : env.transfer attempt m.kind = .exc .typeError) :
    runAttempt env ff types mid attempt (some m) st =
      ({ st with attempts := st.attempts + 1 }, .raised .typeError) := by
  simp only [runAttempt, processTypes_hit env ff attempt mid m types st hk hnd,
    processOneType, hmeta, hcd, htr]
  simp

/-! ## C1 -/

/-- C1: a message whose media transfer raises the transient-timeout
condition (`TypeError`) on every attempt is attempted exactly 3 times,
with a fixed 5-unit sleep after each failed attempt (so 5 units elapse
between consecutive attempts), and its id is then appended to
`FAILED_IDS` exactly once, with the terminal failure logged with reason
timeout; the downloaded list is untouched and the message id is returned. -/
theorem C1_timeout_exhaustion (env : Env) (ff : String → Option (List String))
    (types : List String) (msg : Message) (m : MediaObj) (fmt : Option String)
    (st : DLState)
    (hm : msg.media = some m) (hk : m.kind ∈ types) (hnd : types.Nodup)
    (hmeta : _get_media_meta_format m.kind m.mime = .ok fmt)
    (hcd : _can_download m.kind ff fmt = .ok true)
    (htr : ∀ n t, env.transfer n t = .exc .typeError) :
    download_media env ff types msg st =
      ({ st with attempts := st.attempts + 3,
                 sleeps := st.sleeps ++ [5, 5, 5],
                 failed := st.failed ++ [msg.id],
                 failLog := st.failLog ++ [(msg.id, .timeout)] }, msg.id) := by
  have ha : ∀ (n : Nat) (s : DLState),
      runAttempt env ff types msg.id n (some m) s =
        ({ s with attempts := s.attempts + 1 }, .raised .typeError) :=
    fun n s =>
      runAttempt_typeError env ff types msg.id n m fmt s hk hnd hmeta hcd
        (htr n m.kind)
  cases st with
  | mk f d sl a r lg =>
    simp only [download_media, hm, dlGo, ha]
    simp [List.append_assoc]

theorem C1_timeout_exhaustion_witness :
    download_media
      { transfer := fun _ _ => .exc .typeError, refetch := fun _ => none }
      (fun t => if t = "video" then some ["all"] else none) ["video"]
      { id := 42, media := some { kind := "video", mime := some "video/mp4" } }
      { failed := [], downloaded := [], sleeps := [], attempts := 0,
        removed := 0, failLog := [] } =
      ({ failed := [42], downloaded := [], sleeps := [5, 5, 5], attempts := 3,
         removed := 0, failLog := [(42, .timeout)] }, 42) :=
  C1_timeout_exhaustion _ _ _ _ { kind := "video", mime := some "video/mp4" }
    (some "mp4") _ rfl (by decide) (by decide) rfl rfl
    (fun _ _ => rfl)

/-! ## C5 -/

/-- C5: a zero-byte downloaded file is judged invalid, removed, and the
message id is appended to `FAILED_IDS` (with the size-validation reason);
a nonzero file — however small, e.g. 600 bytes — is judged valid and the
message id is appended to `DOWNLOADED_IDS`. -/
theorem C5_size_validation (env : Env) (ff : String → Option (List String))
    (types : List String) (msg : Message) (m : MediaObj) (fmt : Option String)
    (size : Nat) (st : DLState)
    (hm : msg.media = some m) (hk : m.kind ∈ types) (hnd : types.Nodup)
    (hmeta : _get_media_meta_format m.kind m.mime = .ok fmt)
    (hcd : _can_download m.kind ff fmt = .ok true)
    (htr : env.transfer 0 m.kind = .ok size) :
    (_is_valid_file 0 512 = false ∧ ∀ n : Nat, 0 < n → _is_valid_file n 512 = true) ∧
    (size = 0 →
      download_media env ff types msg st =
        ({ st with attempts := st.attempts + 1,
                   removed := st.removed + 1,
                   failed := st.failed ++ [msg.id],
                   failLog := st.failLog ++ [(msg.id, .tooSmallOrEmpty)] }, msg.id)) ∧
    (0 < size →
      download_media env ff types msg st =
        ({ st with attempts := st.attempts + 1,
                   downloaded := st.downloaded ++ [msg.id] }, msg.id)) := by
  refine ⟨⟨rfl, ?_⟩, ?_, ?_⟩
  · intro n hn
    simp [_is_valid_file, hn.ne']
  · intro h0
    subst h0
    simp only [download_media, hm, dlGo, runAttempt,
      processTypes_hit env ff 0 msg.id m types st hk hnd, processOneType,
      hmeta, hcd, htr]
    simp [_is_valid_file]
  · intro hpos
    have hval : _is_valid_file size 512 = true := by
      simp [_is_valid_file, hpos.ne']
    simp only [download_media, hm, dlGo, runAttempt,
      processTypes_hit env ff 0 msg.id m types st hk hnd, processOneType,
      hmeta, hcd, htr, hval]
    simp

theorem C5_size_validation_witness :
    (download_media
      { transfer := fun _ _ => .ok 0, refetch := fun _ => none }
      (fun t => if t = "video" then some ["all"] else none) ["video"]
      { id := 11, media := some { kind := "video", mime := some "video/mp4" } }
      { failed := [], downloaded := [], sleeps := [], attempts := 0,
        removed := 0, failLog := [] } =
      ({ failed := [11], downloaded := [], sleeps := [], attempts := 1,
         removed := 1, failLog := [(11, .tooSmallOrEmpty)] }, 11)) ∧
    (download_media
      { transfer := fun _ _ => .ok 600, refetch := fun _ => none }
      (fun t => if t = "video" then some ["all"] else none) ["video"]
      { id := 12, media := some { kind := "video", mime := some "video/mp4" } }
      { failed := [], downloaded := [], sleeps := [], attempts := 0,
        removed := 0, failLog := [] } =
      ({ failed := [], downloaded := [12], sleeps := [], attempts := 1,
         removed := 0, failLog := [] }, 12)) :=
  ⟨(C5_size_validation _ (fun t => if t = "video" then some ["all"] else none)
      _ _ { kind := "video", mime := some "video/mp4" }
      (some "mp4") 0 _ rfl (by decide) (by decide) rfl rfl
      rfl).2.1 rfl,
   (C5_size_validation _ (fun t => if t = "video" then some ["all"] else none)
      _ _ { kind := "video", mime := some "video/mp4" }
      (some "mp4") 600 _ rfl (by decide) (by decide) rfl rfl
      rfl).2.2 (by decide)⟩

/-! ## Helper lemmas about the pagination loop -/

/-- The loop neither loses nor reorders messages: the dispatched batches
followed by the leftover `messages_list` are exactly the seeded
accumulator followed by the remaining stream. -/
lemma begin_import_go_join (limit : Nat) (stream : List Nat) :
    ∀ (count : Nat) (acc : List Nat) (done : List (List Nat)),
      (begin_import_go limit stream count acc done).1.flatten ++
          (begin_import_go limit stream count acc done).2 =
        done.flatten ++ acc ++ stream := by
  induction stream with
  | nil =>
    intro count acc done
    simp [begin_import_go]
  | cons m rest ih =>
    intro count acc done
    simp only [begin_import_go]
    by_cases h : count = limit
    · rw [if_neg (not_not_intro h), ih]
      simp
    · rw [if_pos h, ih]
      simp

/-- The accumulator `messages_list` never holds more than `pagination_count + 1` entries,
and a flush happens only at `pagination_count = limit`, so every batch
dispatched inside the loop holds at most `limit + 1` messages. -/
lemma begin_import_go_len (limit : Nat) (stream : List Nat) :
    ∀ (count : Nat) (acc : List Nat) (done : List (List Nat)),
      acc.length ≤ count + 1 →
      (∀ b ∈ done, b.length ≤ limit + 1) →
      ∀ b ∈ (begin_import_go limit stream count acc done).1,
        b.length ≤ limit + 1 := by
  induction stream with
  | nil =>
    intro count acc done _ hdone b hb
    simp only [begin_import_go] at hb
    exact hdone b hb
  | cons m rest ih =>
    intro count acc done hacc hdone
    simp only [begin_import_go]
    by_cases h : count = limit
    · rw [if_neg (not_not_intro h)]
      refine ih 0 [m] (done ++ [acc]) (by simp) ?_
      intro b hb
      rcases List.mem_append.mp hb with h1 | h1
      · exact hdone b h1
      · have hb2 : b = acc := by simpa using h1
        subst hb2
        omega
    · rw [if_pos h]
      refine ih (count + 1) (acc ++ [m]) done ?_ hdone
      simp only [List.length_append, List.length_singleton]
      omega

/-- With a positive limit, whenever `pagination_count` never exceeds the
accumulator length, every batch flushed inside the loop is non-empty. -/
lemma begin_import_go_nonempty (limit : Nat) (hl : 1 ≤ limit) (stream : List Nat) :
    ∀ (count : Nat) (acc : List Nat) (done : List (List Nat)),
      count ≤ acc.length →
      (∀ b ∈ done, b ≠ []) →
      ∀ b ∈ (begin_import_go limit stream count acc done).1, b ≠ [] := by
  induction stream with
  | nil =>
    intro count acc done _ hdone b hb
    simp only [begin_import_go] at hb
    exact hdone b hb
  | cons m rest ih =>
    intro count acc done hacc hdone
    simp only [begin_import_go]
    by_cases h : count = limit
    · rw [if_neg (not_not_intro h)]
      refine ih 0 [m] (done ++ [acc]) (by simp) ?_
      intro b hb
      rcases List.mem_append.mp hb with h1 | h1
      · exact hdone b h1
      · have hb2 : b = acc := by simpa using h1
        subst hb2
        intro he
        rw [he] at hacc
        simp at hacc
        omega
    · rw [if_pos h]
      refine ih (count + 1) (acc ++ [m]) done ?_ hdone
      simp only [List.length_append, List.length_singleton]
      omega

/-! ## C3 -/

set_option maxRecDepth 8192 in
/-- C3 as stated fails on the code: with cap 100, no retry backlog and
250 pending messages with ids 1..250, the two checkpoint cursors are not
the 100th and the 200th message ids. -/
theorem C3_counterexample :
    checkpoint_cursors 100 [] (List.range' 1 250) ≠ [100, 200] := by
  decide

set_option maxRecDepth 8192 in
/-- C3 amended: with cap 100, no retry backlog and 250 pending messages
in ascending id order, the loop writes the checkpoint exactly twice, at
cursors equal to the 100th and the 201st message ids — the flush seeds
the next batch with one uncounted message, so the second dispatched batch
holds 101 messages — and the remaining 49 messages form the final drain
batch, dispatched with no further checkpoint write. -/
theorem C3_amended :
    checkpoint_cursors 100 [] (List.range' 1 250) = [100, 201] ∧
    (begin_import_batches 100 [] (List.range' 1 250)).1.map List.length =
      [100, 101] ∧
    (begin_import_batches 100 [] (List.range' 1 250)).2 = List.range' 202 49 ∧
    dispatched_batches 100 [] (List.range' 1 250) =
      (begin_import_batches 100 [] (List.range' 1 250)).1 ++
        [List.range' 202 49] := by
  refine ⟨by decide, by decide, by decide, by decide⟩

/-! ## C6 -/

/-- Flushed batches only accumulate: the loop result extends the list of
batches already dispatched. -/
lemma begin_import_go_done_mono (limit : Nat) (stream : List Nat) :
    ∀ (count : Nat) (acc : List Nat) (done : List (List Nat)),
      ∃ more : List (List Nat),
        (begin_import_go limit stream count acc done).1 = done ++ more := by
  induction stream with
  | nil =>
    intro count acc done
    exact ⟨[], by simp [begin_import_go]⟩
  | cons m rest ih =>
    intro count acc done
    simp only [begin_import_go]
    by_cases h : count = limit
    · rw [if_neg (not_not_intro h)]
      obtain ⟨more, hm⟩ := ih 0 [m] (done ++ [acc])
      exact ⟨[acc] ++ more, by rw [hm, List.append_assoc]⟩
    · rw [if_pos h]
      exact ih (count + 1) (acc ++ [m]) done

/-- Until the first flush the accumulator keeps its seed as a prefix and
its length equals `pagination_count`.  Hence the first dispatched batch —
the first flushed batch, or the leftover `messages_list` when nothing was
flushed — is the seed followed by further messages, and a first flushed
batch holds exactly `limit` messages. -/
lemma begin_import_go_first (limit : Nat) (stream : List Nat) :
    ∀ (count : Nat) (pre tail : List Nat),
      count = pre.length + tail.length →
      (∃ rest : List Nat,
        ((begin_import_go limit stream count (pre ++ tail) []).1).head? =
          some (pre ++ rest) ∧ pre.length + rest.length = limit) ∨
      ((begin_import_go limit stream count (pre ++ tail) []).1 = [] ∧
        ∃ rest : List Nat,
          (begin_import_go limit stream count (pre ++ tail) []).2 =
            pre ++ rest) := by
  induction stream with
  | nil =>
    intro count pre tail hc
    right
    exact ⟨by simp [begin_import_go], tail, by simp [begin_import_go]⟩
  | cons m rest ih =>
    intro count pre tail hc
    simp only [begin_import_go, List.nil_append]
    by_cases h : count = limit
    · rw [if_neg (not_not_intro h)]
      obtain ⟨more, hm⟩ := begin_import_go_done_mono limit rest 0 [m] [pre ++ tail]
      left
      refine ⟨tail, ?_, by omega⟩
      rw [hm]
      simp
    · rw [if_pos h]
      have hc2 : count + 1 = pre.length + (tail ++ [m]).length := by
        simp only [List.length_append, List.length_singleton]
        omega
      have := ih (count + 1) pre (tail ++ [m]) hc2
      rw [List.append_assoc]
      exact this

set_option maxRecDepth 8192 in
/-- C6 as stated fails on the code under its own premise of a non-empty
retry backlog: with cap 100, retry backlog {300} and 250 forward
messages, the second batch dispatched before the final drain holds 101
messages, exceeding the cap. -/
theorem C6_counterexample :
    ([300] : List Nat) ≠ [] ∧
    ¬ (∀ b ∈ (begin_import_batches 100 [300] (List.range' 1 250)).1,
        b.length ≤ 100) :=
  ⟨by decide, by decide⟩

/-- C6 amended: with a non-empty retry backlog, the backlog messages are
placed into the first dispatched batch, before any forward-scan message,
and they count toward the batch-size cap — when the loop flushes at all,
its first batch is the backlog followed by exactly cap-minus-backlog
further messages, while a backlog larger than the cap is never flushed
inside the loop and lands, still first, in the single final batch — and
every batch dispatched before the final drain holds at most `cap + 1`
messages (one more than the cap, because a flush seeds the next batch
with one message while resetting the count to zero). -/
theorem C6_amended (limit : Nat) (retryIds stream : List Nat)
    (hne : retryIds ≠ []) :
    (∃ rest : List Nat,
      (dispatched_batches limit retryIds stream).head? =
        some (retryIds ++ rest)) ∧
    ((begin_import_batches limit retryIds stream).1 ≠ [] →
      ∃ rest : List Nat,
        ((begin_import_batches limit retryIds stream).1).head? =
          some (retryIds ++ rest) ∧
        retryIds.length + rest.length = limit) ∧
    (begin_import_batches limit retryIds stream).1.flatten ++
        (begin_import_batches limit retryIds stream).2 =
      retryIds ++ stream ∧
    ∀ b ∈ (begin_import_batches limit retryIds stream).1,
      b.length ≤ limit + 1 := by
  have hbdef : begin_import_batches limit retryIds stream =
      begin_import_go limit stream retryIds.length retryIds [] := rfl
  have hfirst := begin_import_go_first limit stream retryIds.length retryIds []
    (by simp)
  rw [List.append_nil, ← hbdef] at hfirst
  refine ⟨?_, ?_, ?_, ?_⟩
  · rcases hfirst with ⟨rest, hh, _⟩ | ⟨hb, rest, hfin⟩
    · refine ⟨rest, ?_⟩
      rcases hbs : (begin_import_batches limit retryIds stream).1 with _ | ⟨b, bs⟩
      · rw [hbs] at hh
        simp at hh
      · rw [hbs] at hh
        simp only [List.head?] at hh
        simp only [dispatched_batches, hbs, List.cons_append, List.head?]
        exact hh
    · refine ⟨rest, ?_⟩
      have hfe : (begin_import_batches limit retryIds stream).2 ≠ [] := by
        rw [hfin]
        intro hcon
        exact hne (List.append_eq_nil.mp hcon).1
      simp only [dispatched_batches, hb, if_neg hfe, List.nil_append]
      rw [hfin]
      rfl
  · intro hnonempty
    rcases hfirst with ⟨rest, hh, hlen⟩ | ⟨hb, _, _⟩
    · exact ⟨rest, hh, hlen⟩
    · exact absurd hb hnonempty
  · simpa using begin_import_go_join limit stream retryIds.length retryIds []
  · exact begin_import_go_len limit stream retryIds.length retryIds []
      (Nat.le_succ _) (by simp)

theorem C6_amended_witness :
    (∃ rest : List Nat,
      (dispatched_batches 2 [300] [1, 2, 3, 4, 5]).head? =
        some ([300] ++ rest)) ∧
    ((begin_import_batches 2 [300] [1, 2, 3, 4, 5]).1 ≠ [] →
      ∃ rest : List Nat,
        ((begin_import_batches 2 [300] [1, 2, 3, 4, 5]).1).head? =
          some ([300] ++ rest) ∧
        ([300] : List Nat).length + rest.length = 2) ∧
    (begin_import_batches 2 [300] [1, 2, 3, 4, 5]).1.flatten ++
        (begin_import_batches 2 [300] [1, 2, 3, 4, 5]).2 =
      [300] ++ [1, 2, 3, 4, 5] ∧
    ∀ b ∈ (begin_import_batches 2 [300] [1, 2, 3, 4, 5]).1,
      b.length ≤ 2 + 1 :=
  C6_amended 2 [300] [1, 2, 3, 4, 5] (by decide)

/-! ## C10 -/

/-- The function `download_media` always returns the original `message_id`, whatever
the transfer does. -/
lemma dlGo_ret (env : Env) (ff : String → Option (List String))
    (types : List String) (mid : Nat) :
    ∀ (rs : List Nat) (media : Option MediaObj) (st : DLState),
      (dlGo env ff types mid rs media st).2 = mid := by
  intro rs
  induction rs with
  | nil => intro media st; rfl
  | cons r rs ih =>
    intro media st
    simp only [dlGo]
    rcases h : runAttempt env ff types mid r media st with ⟨st1, out⟩
    cases out with
    | earlyReturn => simp [h]
    | finished => simp [h]
    | raised e => cases e <;> simp [h, ih]

/-- Python's `asyncio.gather` returns one result per input message, in input
order: the id of each message. -/
lemma process_messages_run_ids (env : Nat → Env)
    (ff : String → Option (List String)) (types : List String) :
    ∀ (msgs : List Message) (st : DLState),
      (process_messages_run env ff types msgs st).2 =
        msgs.map (fun y => y.id) := by
  intro msgs
  induction msgs with
  | nil => intro st; rfl
  | cons msg rest ih =>
    intro st
    simp only [process_messages_run, List.map]
    rw [ih]
    congr 1
    exact dlGo_ret _ _ _ _ _ _ _

/-- Python's `max` raises exactly on the empty list. -/
lemma pyMax_eq_none_iff (l : List Nat) : pyMax l = none ↔ l = [] := by
  cases l <;> simp [pyMax]

/-- C10: `process_messages` returns Python's `max` over the gathered
message ids, which errors (`none`) exactly on an empty batch; and with a
positive batch cap every batch `begin_import` dispatches is non-empty
(flushes happen only with a full accumulator and the final drain is
guarded by `if messages_list:`), so the error branch is unreachable from
the orchestrator. -/
theorem C10_nonempty_dispatch (env : Nat → Env)
    (ff : String → Option (List String)) (types : List String)
    (msgs : List Message) (st : DLState)
    (limit : Nat) (retryIds stream : List Nat) (hl : 1 ≤ limit) :
    ((process_messages env ff types msgs st).2 = none ↔ msgs = []) ∧
    (process_messages env ff types msgs st).2 =
      pyMax (msgs.map (fun y => y.id)) ∧
    (∀ b ∈ dispatched_batches limit retryIds stream, b ≠ []) := by
  have h2 : (process_messages env ff types msgs st).2 =
      pyMax (msgs.map (fun y => y.id)) := by
    simp only [process_messages]
    rw [process_messages_run_ids]
  refine ⟨?_, h2, ?_⟩
  · rw [h2, pyMax_eq_none_iff]
    simp
  · intro b hb
    simp only [dispatched_batches] at hb
    rcases List.mem_append.mp hb with h1 | h1
    · exact begin_import_go_nonempty limit hl stream retryIds.length retryIds
        [] (Nat.le_refl _) (by simp) b h1
    · by_cases hfin : (begin_import_batches limit retryIds stream).2 = []
      · rw [if_pos hfin] at h1
        cases h1
      · rw [if_neg hfin] at h1
        have hb2 : b = (begin_import_batches limit retryIds stream).2 := by
          simpa using h1
        rw [hb2]
        exact hfin

theorem C10_nonempty_dispatch_witness :
    ((process_messages
        (fun _ => { transfer := fun _ _ => .noPath, refetch := fun _ => none })
        (fun _ => some ["all"]) ["video"]
        [{ id := 3, media := none }, { id := 9, media := none }]
        { failed := [], downloaded := [], sleeps := [], attempts := 0,
          removed := 0, failLog := [] }).2 = none ↔
      ([{ id := 3, media := none }, { id := 9, media := none }] :
        List Message) = []) ∧
    (process_messages
        (fun _ => { transfer := fun _ _ => .noPath, refetch := fun _ => none })
        (fun _ => some ["all"]) ["video"]
        [{ id := 3, media := none }, { id := 9, media := none }]
        { failed := [], downloaded := [], sleeps := [], attempts := 0,
          removed := 0, failLog := [] }).2 =
      pyMax (([{ id := 3, media := none }, { id := 9, media := none }] :
        List Message).map (fun y => y.id)) ∧
    (∀ b ∈ dispatched_batches 1 [] [1, 2, 3], b ≠ []) :=
  C10_nonempty_dispatch _ _ _ _ _ 1 [] [1, 2, 3] (by decide)

/-! ## C9: append-only deltas of the shared id lists -/

/-- Between two states, the shared `FAILED_IDS` and `DOWNLOADED_IDS`
lists only grow, by at most `n` appended entries in total, every one of
them equal to the processed message id. -/
def DeltaOK (mid n : Nat) (st st1 : DLState) : Prop :=
  ∃ df dd : List Nat,
    st1.failed = st.failed ++ df ∧ st1.downloaded = st.downloaded ++ dd ∧
    df.length + dd.length ≤ n ∧
    (∀ x ∈ df, x = mid) ∧ (∀ x ∈ dd, x = mid)

lemma DeltaOK.nil (mid n : Nat) (st : DLState) : DeltaOK mid n st st :=
  ⟨[], [], by simp, by simp, by simp, by simp, by simp⟩

lemma DeltaOK.trans {mid a b : Nat} {st st1 st2 : DLState}
    (h1 : DeltaOK mid a st st1) (h2 : DeltaOK mid b st1 st2) :
    DeltaOK mid (a + b) st st2 := by
  obtain ⟨f1, d1, hf1, hd1, hl1, hm1, hn1⟩ := h1
  obtain ⟨f2, d2, hf2, hd2, hl2, hm2, hn2⟩ := h2
  refine ⟨f1 ++ f2, d1 ++ d2, ?_, ?_, ?_, ?_, ?_⟩
  · rw [hf2, hf1, List.append_assoc]
  · rw [hd2, hd1, List.append_assoc]
  · simp only [List.length_append]
    omega
  · intro x hx
    rcases List.mem_append.mp hx with h | h
    · exact hm1 x h
    · exact hm2 x h
  · intro x hx
    rcases List.mem_append.mp hx with h | h
    · exact hn1 x h
    · exact hn2 x h

/-- Updating fields other than the id lists is a zero delta. -/
lemma DeltaOK.other_fields (mid : Nat) (st : DLState) (sl : List Nat)
    (a r : Nat) (lg : List (Nat × FailReason)) :
    DeltaOK mid 0 st
      { failed := st.failed, downloaded := st.downloaded, sleeps := sl,
        attempts := a, removed := r, failLog := lg } :=
  ⟨[], [], by simp, by simp, by simp, by simp, by simp⟩

/-- Appending the message id to `FAILED_IDS` is a delta of one. -/
lemma DeltaOK.push_failed (mid : Nat) (st : DLState) (sl : List Nat)
    (a r : Nat) (lg : List (Nat × FailReason)) :
    DeltaOK mid 1 st
      { failed := st.failed ++ [mid], downloaded := st.downloaded,
        sleeps := sl, attempts := a, removed := r, failLog := lg } :=
  ⟨[mid], [], by simp, by simp, by simp, by simp, by simp⟩

/-- One iteration of the media loop appends at most one id, and an
iteration that raises appends nothing. -/
lemma processOneType_delta (env : Env) (ff : String → Option (List String))
    (attempt mid : Nat) (m : MediaObj) (t : String) (st : DLState) :
    DeltaOK mid 1 st (processOneType env ff attempt mid m t st).1 ∧
    ((processOneType env ff attempt mid m t st).2 ≠ none →
      DeltaOK mid 0 st (processOneType env ff attempt mid m t st).1) := by
  simp only [processOneType]
  split
  · exact ⟨DeltaOK.nil mid 1 st, fun h => absurd rfl h⟩
  · split
    · exact ⟨DeltaOK.nil mid 1 st, fun _ => DeltaOK.nil mid 0 st⟩
    · split
      · exact ⟨DeltaOK.nil mid 1 st, fun _ => DeltaOK.nil mid 0 st⟩
      · exact ⟨DeltaOK.nil mid 1 st, fun h => absurd rfl h⟩
      · split
        · exact ⟨⟨[], [], by simp, by simp, by simp, by simp, by simp⟩,
            fun _ => ⟨[], [], by simp, by simp, by simp, by simp, by simp⟩⟩
        · exact ⟨⟨[], [], by simp, by simp, by simp, by simp, by simp⟩,
            fun h => absurd rfl h⟩
        · split
          · exact ⟨⟨[], [mid], by simp, by simp, by simp, by simp, by simp⟩,
              fun h => absurd rfl h⟩
          · exact ⟨⟨[mid], [], by simp, by simp, by simp, by simp, by simp⟩,
              fun h => absurd rfl h⟩

/-- With duplicate-free `media_types` the whole media loop appends at
most one id, and nothing when it raises. -/
lemma processTypes_delta (env : Env) (ff : String → Option (List String))
    (attempt mid : Nat) (m : MediaObj) (types : List String) (st : DLState)
    (hnd : types.Nodup) :
    DeltaOK mid 1 st (processTypes env ff attempt mid m types st).1 ∧
    ((processTypes env ff attempt mid m types st).2 ≠ none →
      DeltaOK mid 0 st (processTypes env ff attempt mid m types st).1) := by
  by_cases hk : m.kind ∈ types
  · rw [processTypes_hit env ff attempt mid m types st hk hnd]
    exact processOneType_delta env ff attempt mid m m.kind st
  · rw [processTypes_skip env ff attempt mid m types st hk]
    exact ⟨DeltaOK.nil mid 1 st, fun h => absurd rfl h⟩

/-- One attempt of the retry loop appends at most one id, and an attempt
that raises appends nothing. -/
lemma runAttempt_delta (env : Env) (ff : String → Option (List String))
    (types : List String) (mid attempt : Nat) (media : Option MediaObj)
    (st : DLState) (hnd : types.Nodup) :
    DeltaOK mid 1 st (runAttempt env ff types mid attempt media st).1 ∧
    (∀ e, (runAttempt env ff types mid attempt media st).2 = .raised e →
      DeltaOK mid 0 st (runAttempt env ff types mid attempt media st).1) := by
  cases media with
  | none => exact ⟨DeltaOK.nil mid 1 st, fun e h => nomatch h⟩
  | some m =>
    obtain ⟨h1, h2⟩ := processTypes_delta env ff attempt mid m types st hnd
    simp only [runAttempt]
    rcases hpt : processTypes env ff attempt mid m types st with ⟨st1, exc⟩
    rw [hpt] at h1 h2
    cases exc with
    | none => exact ⟨h1, fun e h => nomatch h⟩
    | some e => exact ⟨h1, fun e2 _ => h2 (by simp)⟩

/-- Last iteration of the retry loop: at most one id is appended (by the
attempt itself, or by the `retry == 2` branch of a transient handler, or
by the permanent-failure handler). -/
lemma dlGo_delta_two (env : Env) (ff : String → Option (List String))
    (types : List String) (mid : Nat) (media : Option MediaObj)
    (st : DLState) (hnd : types.Nodup) :
    DeltaOK mid 1 st (dlGo env ff types mid [2] media st).1 := by
  obtain ⟨h1, h2⟩ := runAttempt_delta env ff types mid 2 media st hnd
  simp only [dlGo]
  rcases hra : runAttempt env ff types mid 2 media st with ⟨st1, out⟩
  rw [hra] at h1 h2
  cases out with
  | earlyReturn => exact h1
  | finished => exact h1
  | raised e =>
    have h0 : DeltaOK mid 0 st st1 := h2 e rfl
    cases e with
    | badRequest =>
      exact h0.trans (DeltaOK.push_failed mid st1 st1.sleeps st1.attempts
        st1.removed (st1.failLog ++ [(mid, .fileReferenceExpired)]))
    | typeError =>
      exact h0.trans (DeltaOK.push_failed mid st1 (st1.sleeps ++ [5])
        st1.attempts st1.removed (st1.failLog ++ [(mid, .timeout)]))
    | other =>
      exact h0.trans (DeltaOK.push_failed mid st1 st1.sleeps st1.attempts
        st1.removed (st1.failLog ++ [(mid, .exception)]))

/-- Last two iterations of the retry loop: still at most one appended id,
since a transient handler at `retry != 2` appends nothing. -/
lemma dlGo_delta_onetwo (env : Env) (ff : String → Option (List String))
    (types : List String) (mid : Nat) (media : Option MediaObj)
    (st : DLState) (hnd : types.Nodup) :
    DeltaOK mid 1 st (dlGo env ff types mid [1, 2] media st).1 := by
  obtain ⟨h1, h2⟩ := runAttempt_delta env ff types mid 1 media st hnd
  simp only [dlGo]
  rcases hra : runAttempt env ff types mid 1 media st with ⟨st1, out⟩
  rw [hra] at h1 h2
  cases out with
  | earlyReturn => exact h1
  | finished => exact h1
  | raised e =>
    have h0 : DeltaOK mid 0 st st1 := h2 e rfl
    cases e with
    | badRequest =>
      exact h0.trans (dlGo_delta_two env ff types mid (env.refetch 1) st1 hnd)
    | typeError =>
      exact (h0.trans (DeltaOK.other_fields mid st1 (st1.sleeps ++ [5])
        st1.attempts st1.removed st1.failLog)).trans
        (dlGo_delta_two env ff types mid media _ hnd)
    | other =>
      exact h0.trans (DeltaOK.push_failed mid st1 st1.sleeps st1.attempts
        st1.removed (st1.failLog ++ [(mid, .exception)]))

/-- The whole retry loop appends at most one id to the shared lists, and
only the processed message's own id. -/
lemma dlGo_delta_full (env : Env) (ff : String → Option (List String))
    (types : List String) (mid : Nat) (media : Option MediaObj)
    (st : DLState) (hnd : types.Nodup) :
    DeltaOK mid 1 st (dlGo env ff types mid [0, 1, 2] media st).1 := by
  obtain ⟨h1, h2⟩ := runAttempt_delta env ff types mid 0 media st hnd
  simp only [dlGo]
  rcases hra : runAttempt env ff types mid 0 media st with ⟨st1, out⟩
  rw [hra] at h1 h2
  cases out with
  | earlyReturn => exact h1
  | finished => exact h1
  | raised e =>
    have h0 : DeltaOK mid 0 st st1 := h2 e rfl
    cases e with
    | badRequest =>
      exact h0.trans (dlGo_delta_onetwo env ff types mid (env.refetch 0) st1 hnd)
    | typeError =>
      exact (h0.trans (DeltaOK.other_fields mid st1 (st1.sleeps ++ [5])
        st1.attempts st1.removed st1.failLog)).trans
        (dlGo_delta_onetwo env ff types mid media _ hnd)
    | other =>
      exact h0.trans (DeltaOK.push_failed mid st1 st1.sleeps st1.attempts
        st1.removed (st1.failLog ++ [(mid, .exception)]))

/-- One `download_media` call appends at most one id — the message's own. -/
lemma download_media_delta (env : Env) (ff : String → Option (List String))
    (types : List String) (msg : Message) (st : DLState) (hnd : types.Nodup) :
    DeltaOK msg.id 1 st (download_media env ff types msg st).1 :=
  dlGo_delta_full env ff types msg.id msg.media st hnd

/-- Over a whole gathered batch, the shared lists grow by suffixes whose
entries are ids of batch messages; with pairwise-distinct batch ids, each
id occurs at most once across the two suffixes combined. -/
lemma process_messages_run_delta (env : Nat → Env)
    (ff : String → Option (List String)) (types : List String)
    (hnd : types.Nodup) :
    ∀ (msgs : List Message) (st : DLState),
      ∃ df dd : List Nat,
        (process_messages_run env ff types msgs st).1.failed =
          st.failed ++ df ∧
        (process_messages_run env ff types msgs st).1.downloaded =
          st.downloaded ++ dd ∧
        (∀ x ∈ df, x ∈ msgs.map (fun y => y.id)) ∧
        (∀ x ∈ dd, x ∈ msgs.map (fun y => y.id)) ∧
        ((msgs.map (fun y => y.id)).Nodup →
          ∀ v : Nat, df.count v + dd.count v ≤ 1) := by
  intro msgs
  induction msgs with
  | nil =>
    intro st
    exact ⟨[], [], by simp [process_messages_run], by simp [process_messages_run],
      by simp, by simp, fun _ v => by simp⟩
  | cons msg rest ih =>
    intro st
    obtain ⟨f1, d1, hf1, hd1, hl1, hm1, hn1⟩ :=
      download_media_delta (env msg.id) ff types msg st hnd
    obtain ⟨f2, d2, hf2, hd2, hm2f, hm2d, hcnt⟩ :=
      ih (download_media (env msg.id) ff types msg st).1
    refine ⟨f1 ++ f2, d1 ++ d2, ?_, ?_, ?_, ?_, ?_⟩
    · simp only [process_messages_run]
      rw [hf2, hf1, List.append_assoc]
    · simp only [process_messages_run]
      rw [hd2, hd1, List.append_assoc]
    · intro x hx
      rcases List.mem_append.mp hx with h | h
      · simp [hm1 x h]
      · simp only [List.map, List.mem_cons]
        exact Or.inr (hm2f x h)
    · intro x hx
      rcases List.mem_append.mp hx with h | h
      · simp [hn1 x h]
      · simp only [List.map, List.mem_cons]
        exact Or.inr (hm2d x h)
    · intro hids v
      simp only [List.map, List.nodup_cons] at hids
      obtain ⟨hhead, htail⟩ := hids
      simp only [List.count_append]
      by_cases hv : v = msg.id
      · have hzf : f2.count v = 0 :=
          List.count_eq_zero.mpr (fun hc => hhead (hv ▸ hm2f v hc))
        have hzd : d2.count v = 0 :=
          List.count_eq_zero.mpr (fun hc => hhead (hv ▸ hm2d v hc))
        have hbf : f1.count v ≤ f1.length := List.count_le_length v f1
        have hbd : d1.count v ≤ d1.length := List.count_le_length v d1
        omega
      · have hzf : f1.count v = 0 :=
          List.count_eq_zero.mpr (fun hc => hv (hm1 v hc))
        have hzd : d1.count v = 0 :=
          List.count_eq_zero.mpr (fun hc => hv (hn1 v hc))
        have := hcnt htail v
        omega

/-! ## C9 -/

/-- C9: a dispatched batch produces exactly one outcome per input message
(the gathered result list is the ids in input order), and the shared
`FAILED_IDS` and `DOWNLOADED_IDS` lists grow only by entries for this
batch's ids, each id appearing at most once across the two lists
combined — so no id is recorded twice, nor in both lists. -/
theorem C9_one_outcome_per_message (env : Nat → Env)
    (ff : String → Option (List String)) (types : List String)
    (msgs : List Message) (st : DLState)
    (hnd : types.Nodup) (hids : (msgs.map (fun y => y.id)).Nodup) :
    (process_messages_run env ff types msgs st).2 =
      msgs.map (fun y => y.id) ∧
    ∃ df dd : List Nat,
      (process_messages_run env ff types msgs st).1.failed =
        st.failed ++ df ∧
      (process_messages_run env ff types msgs st).1.downloaded =
        st.downloaded ++ dd ∧
      ∀ v : Nat, df.count v + dd.count v ≤ 1 := by
  obtain ⟨df, dd, hf, hd, _, _, hcnt⟩ :=
    process_messages_run_delta env ff types hnd msgs st
  exact ⟨process_messages_run_ids env ff types msgs st,
    df, dd, hf, hd, hcnt hids⟩

theorem C9_one_outcome_per_message_witness :
    (process_messages_run
        (fun i => { transfer := fun _ _ => .ok (if i = 3 then 0 else 900),
                    refetch := fun _ => none })
        (fun _ => some ["all"]) ["video", "photo"]
        [{ id := 3, media := some { kind := "video", mime := some "video/mp4" } },
         { id := 9, media := some { kind := "video", mime := some "video/mp4" } }]
        { failed := [], downloaded := [], sleeps := [], attempts := 0,
          removed := 0, failLog := [] }).2 =
      ([{ id := 3, media := some { kind := "video", mime := some "video/mp4" } },
        { id := 9, media := some { kind := "video", mime := some "video/mp4" } }] :
        List Message).map (fun y => y.id) ∧
    ∃ df dd : List Nat,
      (process_messages_run
        (fun i => { transfer := fun _ _ => .ok (if i = 3 then 0 else 900),
                    refetch := fun _ => none })
        (fun _ => some ["all"]) ["video", "photo"]
        [{ id := 3, media := some { kind := "video", mime := some "video/mp4" } },
         { id := 9, media := some { kind := "video", mime := some "video/mp4" } }]
        { failed := [], downloaded := [], sleeps := [], attempts := 0,
          removed := 0, failLog := [] }).1.failed = [] ++ df ∧
      (process_messages_run
        (fun i => { transfer := fun _ _ => .ok (if i = 3 then 0 else 900),
                    refetch := fun _ => none })
        (fun _ => some ["all"]) ["video", "photo"]
        [{ id := 3, media := some { kind := "video", mime := some "video/mp4" } },
         { id := 9, media := some { kind := "video", mime := some "video/mp4" } }]
        { failed := [], downloaded := [], sleeps := [], attempts := 0,
          removed := 0, failLog := [] }).1.downloaded = [] ++ dd ∧
      ∀ v : Nat, df.count v + dd.count v ≤ 1 :=
  C9_one_outcome_per_message _ _ _ _ _ (by decide) (by decide)

end MediaDownloader
